import Mathlib

/-!
Verification development for the sandboxed-plan execution gateway
(`modules/action.py`) and its heuristic validation layer
(`modules/heuristics.py`).

The Python code is shallowly embedded: pure string/structure processing is
translated into executable Lean functions over `List Char` / an inductive
`PyValue` mirroring Python's JSON-like values; the stateful parts (the URL
rate-limit tracker, the per-plan tool-call counter) are explicit state
passing.  Python's `re.search` calls are embedded as hand-written matchers
for the exact regular expressions appearing in the source.  Timestamps
(`time.time()` floats in the source) are modeled as integers: every check
in the source uses only ordering and subtraction of a window length, so
the embedding is faithful up to the choice of the time domain.
-/

/-! ## List-of-characters string helpers

Python string primitives (`split('\n')`, `strip()`, `lower()`, `in`,
`startswith`) are embedded as executable functions on `List Char` so that
all definitions compute by kernel reduction. -/

/-- Python `\s` (whitespace) for ASCII text: space, tab, newline, carriage
return, vertical tab, form feed. -/
def pyIsSpace (c : Char) : Bool :=
  c = ' ' || c = '\t' || c = '\n' || c = '\r' || c = '\x0b' || c = '\x0c'

/-- Python `str.split('\n')`: split on every newline, keeping empty pieces
(`"" → [""]`, `"a\n" → ["a", ""]`). -/
def splitOnNl : List Char → List (List Char)
  | [] => [[]]
  | c :: rest =>
    if c = '\n' then [] :: splitOnNl rest
    else
      match splitOnNl rest with
      | l :: ls => (c :: l) :: ls
      | [] => [[c]]

/-- Python `str.strip()`: drop whitespace from both ends. -/
def pyStrip (cs : List Char) : List Char :=
  ((cs.dropWhile pyIsSpace).reverse.dropWhile pyIsSpace).reverse

/-- Python `needle in hay` substring test on character lists. -/
def isSubL (needle : List Char) : List Char → Bool
  | [] => needle.isPrefixOf []
  | c :: rest => needle.isPrefixOf (c :: rest) || isSubL needle rest

/-- Python `str.lower()` for ASCII text. -/
def lowerL (cs : List Char) : List Char := cs.map Char.toLower

/-- Boolean `startsWith` on strings that reduces in the kernel. -/
def strStarts (s pre : String) : Bool := pre.toList.isPrefixOf s.toList

/-- Join a list of character lists with a separator character list. -/
def joinWith (sep : List Char) : List (List Char) → List Char
  | [] => []
  | [l] => l
  | l :: l2 :: ls => l ++ sep ++ joinWith sep (l2 :: ls)

/-- Python word character (`\w` of `re` restricted to ASCII, which is the
alphabet all scanned patterns and inputs in this code use):
letters, digits, underscore. -/
def isWordChar (c : Char) : Bool := c.isAlphanum || c = '_'

/-! ## Python values

`PyValue` mirrors the JSON-serializable Python values that flow through
the validator: strings, ints, booleans, `None`, lists and string-keyed
dicts (association lists; keys are unique as in a Python `dict`). -/

inductive PyValue where
  | str : String → PyValue
  | int : Int → PyValue
  | bool : Bool → PyValue
  | none : PyValue
  | list : List PyValue → PyValue
  | dict : List (String × PyValue) → PyValue

/-- Python `d.get(k)` / `k in d` on a dict: first binding of the key. -/
def pyDictGet (entries : List (String × PyValue)) (k : String) : Option PyValue :=
  (entries.find? (fun p => p.1 = k)).map (fun p => p.2)

/-- Python truthiness (`if x:`) for the embedded values. -/
def pyTruthy : PyValue → Bool
  | .str s => !(s.toList.isEmpty)
  | .int n => n ≠ 0
  | .bool b => b
  | .none => false
  | .list xs => !xs.isEmpty
  | .dict es => !es.isEmpty

/-- Escape one character for Python `repr` of a string (single-quoted). -/
def pyReprEscape (c : Char) : List Char :=
  if c = '\\' then ['\\', '\\']
  else if c = '\x27' then ['\\', '\x27']
  else if c = '\n' then ['\\', 'n']
  else if c = '\r' then ['\\', 'r']
  else if c = '\t' then ['\\', 't']
  else [c]

/-- Python `repr` of a string: modeled as always single-quoted with
standard escapes; Python switches to double quotes when the text contains
a single quote and no double quote, a cosmetic difference no claim
depends on. -/
def pyStrRepr (s : String) : String :=
  String.mk ('\x27' :: (s.toList.flatMap pyReprEscape) ++ ['\x27'])

mutual
/-- Python `repr` of a value (as used by `str()` on containers). -/
def pyRepr : PyValue → String
  | .str s => pyStrRepr s
  | .int n => toString n
  | .bool b => if b then "True" else "False"
  | .none => "None"
  | .list xs => "[" ++ String.intercalate ", " (pyReprList xs) ++ "]"
  | .dict es => "\x7b" ++ String.intercalate ", " (pyReprEntries es) ++ "\x7d"

def pyReprList : List PyValue → List String
  | [] => []
  | v :: rest => pyRepr v :: pyReprList rest

def pyReprEntries : List (String × PyValue) → List String
  | [] => []
  | (k, v) :: rest => (pyStrRepr k ++ ": " ++ pyRepr v) :: pyReprEntries rest
end

/-- Python `str(x)` / f-string interpolation of a value. -/
def pyStr : PyValue → String
  | .str s => s
  | v => pyRepr v

/-- Escape one character for `json.dumps` string output. -/
def jsonEscape (c : Char) : List Char :=
  if c = '\\' then ['\\', '\\']
  else if c = '"' then ['\\', '"']
  else if c = '\n' then ['\\', 'n']
  else if c = '\r' then ['\\', 'r']
  else if c = '\t' then ['\\', 't']
  else [c]

/-- The `json.dumps` rendering of a string value. -/
def jsonStrDump (s : String) : String :=
  String.mk ('"' :: (s.toList.flatMap jsonEscape) ++ ['"'])

mutual
/-- Python `json.dumps` with its default separators `(', ', ': ')`.
Non-ASCII escaping (`ensure_ascii`) is not modeled; all scanned inputs
are ASCII. -/
def jsonDumps : PyValue → String
  | .str s => jsonStrDump s
  | .int n => toString n
  | .bool b => if b then "true" else "false"
  | .none => "null"
  | .list xs => "[" ++ String.intercalate ", " (jsonDumpsList xs) ++ "]"
  | .dict es => "\x7b" ++ String.intercalate ", " (jsonDumpsEntries es) ++ "\x7d"

def jsonDumpsList : List PyValue → List String
  | [] => []
  | v :: rest => jsonDumps v :: jsonDumpsList rest

def jsonDumpsEntries : List (String × PyValue) → List String
  | [] => []
  | (k, v) :: rest => (jsonStrDump k ++ ": " ++ jsonDumps v) :: jsonDumpsEntries rest
end

/-! ## Configuration (`HeuristicConfig`, heuristics.py lines 27-45) -/

/-- Embeds `HeuristicConfig` with its default field values. -/
structure HeuristicConfig where
  max_input_length : Nat := 50000
  max_json_depth : Nat := 10
  max_files_per_call : Nat := 3
  max_url_calls_per_domain : Nat := 5
  url_call_window_seconds : Nat := 60
  request_timeout_seconds : Nat := 10
  allow_non_ascii : Bool := true
  blocked_commands : List String :=
    ["rm -rf", "rm -fr", "rmdir /s", "del /f", "format",
     "dd if=/dev/zero", ":()\x7b:|:&\x7d;:", "mkfs", "sudo rm",
     "> /dev/sda", "mv /* ", "chmod -R 777 /", "chown -R"]
  blocked_file_operations : List String :=
    ["/etc/", "/sys/", "/proc/", "/dev/", "/boot/",
     "C:\\Windows\\", "C:\\Program Files\\", "/var/", "/usr/bin/"]
  max_plan_length : Nat := 10000

/-! ## URL parsing model

`urllib.parse.urlparse` (Python stdlib, external to this repository) is
modeled for the pieces the validator reads: `scheme`, `netloc` and
`hostname`.  A scheme is split off when the text before the first `:`
is a letter followed by letters/digits/`+`/`-`/`.`; the netloc is the
text after a leading `//` up to the first `/`, `?` or `#`; the hostname
is the netloc after the last `@`, up to `:` (or bracket-delimited for
IPv6), lowercased, `None` when empty. -/

def isSchemeChar (c : Char) : Bool :=
  c.isAlphanum || c = '+' || c = '-' || c = '.'

/-- Split at the first `:`, returning (before, after). -/
def splitColon : List Char → Option (List Char × List Char)
  | [] => Option.none
  | c :: rest =>
    if c = ':' then some ([], rest)
    else (splitColon rest).map (fun p => (c :: p.1, p.2))

structure UrlParts where
  scheme : List Char
  netloc : List Char

def urlparseL (url : List Char) : UrlParts :=
  let (scheme, rest) :=
    match splitColon url with
    | some (pre, post) =>
      match pre with
      | [] => ([], url)
      | c0 :: _ =>
        if c0.isAlpha && pre.all isSchemeChar then (lowerL pre, post)
        else ([], url)
    | Option.none => ([], url)
  let netloc :=
    if ['/', '/'].isPrefixOf rest then
      (rest.drop 2).takeWhile (fun c => c ≠ '/' && c ≠ '?' && c ≠ '#')
    else []
  ⟨scheme, netloc⟩

/-- Drop everything up to and including the last occurrence of `@`
(identity when there is no `@`), as `netloc.rpartition('@')` does. -/
def afterLastAt (cs : List Char) : List Char :=
  ((cs.reverse.takeWhile (fun c => c ≠ '@'))).reverse

/-- Hostname from a netloc: after the last `@`; `[v6]` bracket form keeps
the bracket interior; otherwise up to the first `:`; lowercased; `None`
when empty. -/
def hostnameOf (netloc : List Char) : Option (List Char) :=
  let hostport := afterLastAt netloc
  let host :=
    match hostport with
    | '[' :: rest => rest.takeWhile (fun c => c ≠ ']')
    | _ => hostport.takeWhile (fun c => c ≠ ':')
  if host.isEmpty then Option.none else some (lowerL host)

/-! ## Validator state (heuristics.py lines 57-64)

`HeuristicValidator.__init__`: the URL rate-limit tracker is a
`defaultdict(list)` from domain to call timestamps; `tool_call_tracker`
is written nowhere in the source and is carried only for completeness. -/

structure ValidatorState where
  url_call_tracker : List (String × List Int) := []
  tool_call_tracker : List (String × Nat) := []

/-- Read of a `defaultdict(list)` entry: missing keys read as `[]`. -/
def trackerGet (st : ValidatorState) (domain : String) : List Int :=
  ((st.url_call_tracker.find? (fun p => p.1 = domain)).map (fun p => p.2)).getD []

def upsertTracker : List (String × List Int) → String → List Int → List (String × List Int)
  | [], d, ts => [(d, ts)]
  | (k, v) :: rest, d, ts =>
    if k = d then (d, ts) :: rest else (k, v) :: upsertTracker rest d ts

def trackerSet (st : ValidatorState) (domain : String) (ts : List Int) : ValidatorState :=
  { st with url_call_tracker := upsertTracker st.url_call_tracker domain ts }

/-! ## 1. URL validation (heuristics.py lines 70-100) -/

/-- Embeds `HeuristicValidator.validate_url`.  The argument is a `PyValue`
because the pipeline passes it an arbitrary nested value; the source
checks `isinstance(url, str)` first.  For a string input `urlparse` never
raises, so the `except` branch of the source is unreachable. -/
def validate_url (v : PyValue) : Bool × Option String :=
  match v with
  | .str url =>
    if url.toList.isEmpty then (false, some "URL is empty or not a string")
    else
      let parsed := urlparseL url.toList
      if !(parsed.scheme = "http".toList || parsed.scheme = "https".toList) then
        (false, some ("Invalid URL scheme: " ++ String.mk parsed.scheme ++ ". Only http/https allowed."))
      else if parsed.netloc.isEmpty then
        (false, some "URL missing domain/host")
      else
        match hostnameOf parsed.netloc with
        | some h =>
          if h = "localhost".toList || h = "127.0.0.1".toList ||
             h = "0.0.0.0".toList || h = "::1".toList then
            (false, some ("Access to " ++ String.mk h ++ " is blocked for security reasons"))
          else if "192.168.".toList.isPrefixOf h || "10.".toList.isPrefixOf h ||
                  "172.16.".toList.isPrefixOf h then
            (false, some "Access to private IP range is blocked")
          else (true, Option.none)
        | Option.none => (true, Option.none)
  | _ => (false, some "URL is empty or not a string")

/-! ## 2. JSON validation (heuristics.py lines 106-136) -/

mutual
/-- Embeds the recursive `get_depth` helper of `validate_json_input`:
returns `current_depth` immediately once it exceeds `max_depth`, otherwise
descends into dict values and list items, `current_depth` for leaves and
empty containers. -/
def get_depth (maxd : Nat) : PyValue → Nat → Nat
  | v, cd =>
    if cd > maxd then cd
    else
      match v with
      | .dict [] => cd
      | .dict (e :: es) => get_depth_entries maxd (e :: es) (cd + 1)
      | .list [] => cd
      | .list (x :: xs) => get_depth_list maxd (x :: xs) (cd + 1)
      | _ => cd

/-- Python `max(get_depth(v, cd) for v in values)` over a nonempty list
(the empty case is unreachable behind the guard above). -/
def get_depth_entries (maxd : Nat) : List (String × PyValue) → Nat → Nat
  | [], cd => cd
  | [(_, v)], cd => get_depth maxd v cd
  | (_, v) :: e :: rest, cd => max (get_depth maxd v cd) (get_depth_entries maxd (e :: rest) cd)

def get_depth_list (maxd : Nat) : List PyValue → Nat → Nat
  | [], cd => cd
  | [v], cd => get_depth maxd v cd
  | v :: w :: rest, cd => max (get_depth maxd v cd) (get_depth_list maxd (w :: rest) cd)
end

/-- Embeds `HeuristicValidator.validate_json_input` from the point where
`json.loads` has succeeded; parsing itself is performed by Python's `json`
module (stdlib, external), and `json.loads` of a dumped `PyValue` returns
the same structure.  The source's `max_depth = max_depth or
self.config.max_json_depth` makes an explicit `0` fall back to the
configured depth (Python `or` on a falsy value). -/
def validate_json_input_value (cfg : HeuristicConfig) (md : Option Nat) (parsed : PyValue) :
    Bool × Option String × Option PyValue :=
  let max_depth :=
    match md with
    | some m => if m = 0 then cfg.max_json_depth else m
    | Option.none => cfg.max_json_depth
  let depth := get_depth max_depth parsed 0
  if depth > max_depth then
    (false, some ("JSON depth (" ++ toString depth ++ ") exceeds maximum allowed (" ++
      toString max_depth ++ ")"), some parsed)
  else (true, Option.none, some parsed)

/-! ## 3. Input length validation (heuristics.py lines 142-151) -/

/-- Embeds `HeuristicValidator.validate_input_length`: the length bound it
enforces is `config.max_input_length`. -/
def validate_input_length (cfg : HeuristicConfig) (text : String) : Bool × Option String :=
  let length := text.length
  if length > cfg.max_input_length then
    (false, some ("Input too long: " ++ toString length ++ " chars (max: " ++
      toString cfg.max_input_length ++ ")"))
  else (true, Option.none)

/-! ## 5. Rate limiting (heuristics.py lines 196-227) -/

/-- Embeds `HeuristicValidator.check_url_rate_limit`.  The pruned list is
written back to the tracker whether or not the call is allowed; the
current timestamp is appended only on success.  A non-string argument
makes `urlparse` raise, which the bare `except` turns into a failure. -/
def check_url_rate_limit (cfg : HeuristicConfig) (st : ValidatorState) (v : PyValue)
    (now : Int) : (Bool × Option String) × ValidatorState :=
  match v with
  | .str url =>
    let domain := String.mk (urlparseL url.toList).netloc
    let window_start : Int := now - (cfg.url_call_window_seconds : Int)
    let pruned := (trackerGet st domain).filter (fun t => t > window_start)
    let call_count := pruned.length
    if call_count ≥ cfg.max_url_calls_per_domain then
      ((false, some ("Rate limit exceeded for " ++ domain ++ ": " ++ toString call_count ++
        " calls in " ++ toString cfg.url_call_window_seconds ++ "s (max: " ++
        toString cfg.max_url_calls_per_domain ++ ")")), trackerSet st domain pruned)
    else
      ((true, Option.none), trackerSet st domain (pruned ++ [now]))
  | _ => ((false, some "Cannot parse domain from URL"), st)

/-! ## 7. File input validation (heuristics.py lines 256-277) -/

/-- Error raised by `path.lower()` when the pipeline hands a non-string
path to `validate_file_inputs` (nothing in the source catches it). -/
def attrErrorLower : String := "AttributeError: object has no attribute lower"

/-- The `for path in file_paths: for blocked in ...` loop.  A non-string
path raises as soon as a blocked pattern would be tested against it. -/
def fileLoop (cfg : HeuristicConfig) : List PyValue → Except String (Bool × Option String)
  | [] => Except.ok (true, Option.none)
  | p :: rest =>
    match p with
    | .str s =>
      match cfg.blocked_file_operations.find? (fun b => isSubL (lowerL b.toList) (lowerL s.toList)) with
      | some b => Except.ok (false, some ("Access to " ++ b ++ " is blocked for security"))
      | Option.none => fileLoop cfg rest
    | _ =>
      if cfg.blocked_file_operations.isEmpty then fileLoop cfg rest
      else Except.error attrErrorLower

/-- Embeds `HeuristicValidator.validate_file_inputs` on a list argument
(the pipeline always passes a one-element list). -/
def validate_file_inputs (cfg : HeuristicConfig) (file_paths : List PyValue) :
    Except String (Bool × Option String) :=
  if file_paths.length > cfg.max_files_per_call then
    Except.ok (false, some ("Too many files: " ++ toString file_paths.length ++
      " (max: " ++ toString cfg.max_files_per_call ++ ")"))
  else fileLoop cfg file_paths

/-! ## 8. Dangerous command detection (heuristics.py lines 283-332)

The five `dangerous_patterns` regexes of `validate_command_safety` are
embedded as positional matchers plus a search-at-every-position wrapper.
`.` in these patterns does not match a newline (Python default). -/

/-- Match a literal, returning the remaining text. -/
def litL (s : String) (cs : List Char) : Option (List Char) :=
  if s.toList.isPrefixOf cs then some (cs.drop s.toList.length) else Option.none

/-- Python `\s+` then the rest: at least one whitespace character. -/
def spacePlus (cs : List Char) : Option (List Char) :=
  match cs with
  | c :: rest => if pyIsSpace c then some (rest.dropWhile pyIsSpace) else Option.none
  | [] => Option.none

/-- Scan for `target` with `.*` in front of it: the target must occur
before any newline.  Returns the remainder after the first occurrence. -/
def dotStarFind (target : String) : List Char → Option (List Char)
  | [] => if target.toList.isPrefixOf [] then some [] else Option.none
  | c :: rest =>
    if target.toList.isPrefixOf (c :: rest) then some ((c :: rest).drop target.toList.length)
    else if c = '\n' then Option.none
    else dotStarFind target rest

/-- Positional matcher for `rm\s+-[rf]{1,2}\s+/`. -/
def rmPatCheck (cs : List Char) : Bool :=
  match litL "rm" cs with
  | some r1 =>
    (match spacePlus r1 with
     | some r2 =>
       (match r2 with
        | '-' :: c1 :: r3 =>
          (c1 = 'r' || c1 = 'f') &&
          ((match r3 with
            | c2 :: r4 =>
              ((c2 = 'r' || c2 = 'f') &&
                (match spacePlus r4 with
                 | some r5 => r5.head? = some '/'
                 | Option.none => false)) ||
              (match spacePlus r3 with
               | some r5 => r5.head? = some '/'
               | Option.none => false)
            | [] => false))
        | _ => false)
     | Option.none => false)
  | Option.none => false

/-- Positional matcher for `>\s*/dev/sd[a-z]`. -/
def devSdPatCheck (cs : List Char) : Bool :=
  match litL ">" cs with
  | some r1 =>
    (match litL "/dev/sd" (r1.dropWhile pyIsSpace) with
     | some r2 =>
       (match r2.head? with
        | some c => 'a' ≤ c && c ≤ 'z'
        | Option.none => false)
     | Option.none => false)
  | Option.none => false

/-- Positional matcher for `dd\s+if=.*of=/dev/`. -/
def ddPatCheck (cs : List Char) : Bool :=
  match litL "dd" cs with
  | some r1 =>
    (match spacePlus r1 with
     | some r2 =>
       (match litL "if=" r2 with
        | some r3 => (dotStarFind "of=/dev/" r3).isSome
        | Option.none => false)
     | Option.none => false)
  | Option.none => false

/-- Positional matcher for `mkfs\.`. -/
def mkfsPatCheck (cs : List Char) : Bool := ("mkfs.".toList.isPrefixOf cs)

/-- Positional matcher for `:()\{.*\|.*&\};:` (the `()` group matches the
empty string, so the pattern requires `:{`, then `|`, then `&};:`). -/
def forkBombPatCheck (cs : List Char) : Bool :=
  match litL ":\x7b" cs with
  | some r1 =>
    (match dotStarFind "|" r1 with
     | some r2 => (dotStarFind "&\x7d;:" r2).isSome
     | Option.none => false)
  | Option.none => false

/-- Python `re.search`: try the positional matcher at every start. -/
def searchAny (check : List Char → Bool) : List Char → Bool
  | [] => check []
  | c :: rest => check (c :: rest) || searchAny check rest

def dangerous_cmd_patterns : List (List Char → Bool) :=
  [rmPatCheck, devSdPatCheck, ddPatCheck, mkfsPatCheck, forkBombPatCheck]

/-- The execution markers that make `validate_command_safety` retain a
line for inspection. -/
def execution_markers : List String :=
  ["subprocess.", "os.system(", "os.popen(", "exec(", "eval("]

/-- Embeds `HeuristicValidator.validate_command_safety`.  Lines are
stripped; comment lines (stripped text starting with `#`) are skipped;
only lines containing one of `execution_markers` are retained.  With no
retained lines the check passes without consulting the blocklist.  The
source also computes `command_lower = command.lower()` which it never
uses.  A non-string argument fails the `isinstance` check. -/
def validate_command_safety (cfg : HeuristicConfig) (command : PyValue) : Bool × Option String :=
  match command with
  | .str s =>
    let lines := splitOnNl s.toList
    let code_lines := (lines.map pyStrip).filter (fun stripped =>
      !('#' :: []).isPrefixOf stripped &&
      execution_markers.any (fun k => isSubL k.toList stripped))
    let command_code := joinWith ['\n'] code_lines
    if command_code.isEmpty then (true, Option.none)
    else
      match cfg.blocked_commands.find? (fun b => isSubL (lowerL b.toList) (lowerL command_code)) with
      | some b => (false, some ("Dangerous command detected: \x27" ++ b ++ "\x27"))
      | Option.none =>
        if dangerous_cmd_patterns.any (fun p => searchAny p (lowerL command_code)) then
          (false, some "Dangerous command pattern detected")
        else (true, Option.none)
  | _ => (false, some "Command is not a string")

/-! ## 9. Tool registry validation (heuristics.py lines 338-348) -/

/-- Embeds `HeuristicValidator.validate_tool_exists`. -/
def validate_tool_exists (tool_name : String) (available_tools : List String) :
    Bool × Option String :=
  if tool_name ∈ available_tools then (true, Option.none)
  else
    (false, some ("Tool \x27" ++ tool_name ++ "\x27 not found in registry. Available tools: " ++
      String.intercalate ", " (available_tools.take 5) ++ "..."))

/-! ## 10. Plan validation (heuristics.py lines 354-394)

The ten `dangerous_patterns` of `validate_generated_plan` all begin with a
word boundary `\b` followed by a word character, so a match at position
`i` requires the previous character (if any) to be a non-word character. -/

/-- Positional matcher for `\bWORD\b` (boundary before handled by the
search wrapper): literal word, then end of text or a non-word character. -/
def wholeWordCheck (w : String) (cs : List Char) : Bool :=
  w.toList.isPrefixOf cs &&
  (match cs.drop w.toList.length with
   | [] => true
   | c :: _ => !isWordChar c)

/-- Positional matcher for `\bWORD\s*\(`: literal word, optional
whitespace, an opening parenthesis. -/
def wordCallCheck (w : String) (cs : List Char) : Bool :=
  w.toList.isPrefixOf cs &&
  ((cs.drop w.toList.length).dropWhile pyIsSpace).head? = some '('

/-- Search wrapper enforcing the leading `\b`: the positional check may
fire at the start of the text or after a non-word character. -/
def searchWordStartAux (check : List Char → Bool) : Option Char → List Char → Bool
  | prev, [] =>
    (match prev with
     | Option.none => true
     | some c => !isWordChar c) && check []
  | prev, c :: rest =>
    ((match prev with
      | Option.none => true
      | some p => !isWordChar p) && check (c :: rest)) ||
    searchWordStartAux check (some c) rest

def searchWordStart (check : List Char → Bool) (cs : List Char) : Bool :=
  searchWordStartAux check Option.none cs

/-- The `dangerous_patterns` list of `validate_generated_plan`, in source
order, paired with the reported operation names. -/
def dangerous_plan_patterns : List ((List Char → Bool) × String) :=
  [(wholeWordCheck "subprocess", "subprocess"),
   (wholeWordCheck "os.system", "os.system"),
   (wordCallCheck "eval", "eval"),
   (wordCallCheck "exec", "exec"),
   (wordCallCheck "__import__", "__import__"),
   (wordCallCheck "open", "open"),
   (wordCallCheck "file", "file"),
   (wordCallCheck "input", "input"),
   (wordCallCheck "raw_input", "raw_input"),
   (wordCallCheck "execfile", "execfile")]

/-- The pattern loop of `validate_generated_plan`: for each pattern in
order, scan every line, skipping lines whose stripped text starts with
`#`, and report the first pattern that matches some line. -/
def scan_dangerous_plan (plan_code : String) : Option String :=
  dangerous_plan_patterns.findSome? (fun p =>
    (((splitOnNl plan_code.toList)).find? (fun line =>
      !('#' :: []).isPrefixOf (pyStrip line) && searchWordStart p.1 line)).map (fun _ => p.2))

/-- Embeds `HeuristicValidator.validate_generated_plan`: length check via
`validate_input_length` (which bounds by `max_input_length`; the config
field `max_plan_length` is read nowhere in the source), then the dangerous
pattern scan, then `validate_command_safety` over the whole code. -/
def validate_generated_plan (cfg : HeuristicConfig) (plan_code : String) : Bool × Option String :=
  match validate_input_length cfg plan_code with
  | (false, msg) => (false, some ("Plan too long: " ++ msg.getD "None"))
  | (true, _) =>
    match scan_dangerous_plan plan_code with
    | some nm => (false, some ("Dangerous operation \x27" ++ nm ++ "\x27 detected in plan"))
    | Option.none =>
      match validate_command_safety cfg (.str plan_code) with
      | (false, msg) => (false, some ("Dangerous command in plan: " ++ msg.getD "None"))
      | (true, _) => (true, Option.none)

/-! ## API key exposure (heuristics.py lines 413-429)

All five regexes are applied with `re.IGNORECASE`; the embedding searches
the lowercased text with lowercased patterns, which is equivalent for
these character classes. -/

def isQuote (c : Char) : Bool := c = '"' || c = '\x27'

/-- The `[a-zA-Z0-9_\-]` class (on lowercased text). -/
def keyTokenChar (c : Char) : Bool := c.isAlphanum || c = '_' || c = '-'

/-- Optionally consume one character matching `p` (`X?` in the regexes;
deterministic here because the following required characters are always
outside the optional class). -/
def optChar (p : Char → Bool) (cs : List Char) : List Char :=
  match cs with
  | c :: rest => if p c then rest else c :: rest
  | [] => []

/-- Positional matcher for `api[_-]?key["\']?\s*[:=]\s*["\']([a-zA-Z0-9_\-]{20,})`
and its `secret` twin (parameterised by the leading literal). -/
def keyAssignCheck (head : String) (cs : List Char) : Bool :=
  match litL head cs with
  | some r1 =>
    (match litL "key" (optChar (fun c => c = '_' || c = '-') r1) with
     | some r3 =>
       (match ((optChar isQuote r3).dropWhile pyIsSpace) with
        | c :: r6 =>
          (c = ':' || c = '=') &&
          (match (r6.dropWhile pyIsSpace) with
           | q :: r8 => isQuote q && (r8.takeWhile keyTokenChar).length ≥ 20
           | [] => false)
        | [] => false)
     | Option.none => false)
  | Option.none => false

/-- Positional matcher for `password["\']?\s*[:=]\s*["\']([^"\']{8,})`. -/
def passwordCheck (cs : List Char) : Bool :=
  match litL "password" cs with
  | some r1 =>
    (match ((optChar isQuote r1).dropWhile pyIsSpace) with
     | c :: r2 =>
       (c = ':' || c = '=') &&
       (match (r2.dropWhile pyIsSpace) with
        | q :: r3 => isQuote q && (r3.takeWhile (fun c => !isQuote c)).length ≥ 8
        | [] => false)
     | [] => false)
  | Option.none => false

/-- Positional matcher for `(sk|pk)_[a-z]{4,}_[a-zA-Z0-9]{20,}`. -/
def vendorKeyCheck (cs : List Char) : Bool :=
  match (match litL "sk_" cs with
         | some r => some r
         | Option.none => litL "pk_" cs) with
  | some r1 =>
    let run := r1.takeWhile Char.isLower
    decide (run.length ≥ 4) &&
    (match r1.drop run.length with
     | '_' :: r2 => (r2.takeWhile Char.isAlphanum).length ≥ 20
     | _ => false)
  | Option.none => false

/-- The `[0-9A-Za-z\\-_]` class of the Google-key regex: in a character
class `\\-_` is the range `\x5C`-`\x5F` (backslash, `]` escapes aside:
`\x5C,\x5D,\x5E,\x5F`), alongside digits and letters. -/
def googleKeyChar (c : Char) : Bool :=
  c.isAlphanum || (92 ≤ c.toNat && c.toNat ≤ 95)

/-- Positional matcher for `AIza[0-9A-Za-z\\-_]{35}` (lowercased). -/
def googleKeyCheck (cs : List Char) : Bool :=
  match litL "aiza" cs with
  | some r1 => (r1.takeWhile googleKeyChar).length ≥ 35
  | Option.none => false

def api_key_patterns : List (List Char → Bool) :=
  [keyAssignCheck "api", keyAssignCheck "secret", passwordCheck, vendorKeyCheck, googleKeyCheck]

/-- Embeds `HeuristicValidator.validate_api_key_exposure`. -/
def validate_api_key_exposure (text : String) : Bool × Option String :=
  if api_key_patterns.any (fun p => searchAny p (lowerL text.toList)) then
    (false, some "Potential API key or secret detected in input. Please use environment variables.")
  else (true, Option.none)

/-! ## SQL injection (heuristics.py lines 431-445) -/

/-- Positional matcher for `'\s*OR\s+'1'\s*=\s*'1` (lowercased). -/
def sqlOrCheck (cs : List Char) : Bool :=
  match litL "\x27" cs with
  | some r1 =>
    (match litL "or" (r1.dropWhile pyIsSpace) with
     | some r2 =>
       (match spacePlus r2 with
        | some r3 =>
          (match litL "\x271\x27" r3 with
           | some r4 =>
             (match litL "=" (r4.dropWhile pyIsSpace) with
              | some r5 => (litL "\x271" (r5.dropWhile pyIsSpace)).isSome
              | Option.none => false)
           | Option.none => false)
        | Option.none => false)
     | Option.none => false)
  | Option.none => false

/-- Positional matcher for `;\s*DROP\s+TABLE` (lowercased). -/
def sqlDropCheck (cs : List Char) : Bool :=
  match litL ";" cs with
  | some r1 =>
    (match litL "drop" (r1.dropWhile pyIsSpace) with
     | some r2 =>
       (match spacePlus r2 with
        | some r3 => (litL "table" r3).isSome
        | Option.none => false)
     | Option.none => false)
  | Option.none => false

/-- Positional matcher for `UNION\s+SELECT` (lowercased). -/
def sqlUnionCheck (cs : List Char) : Bool :=
  match litL "union" cs with
  | some r1 =>
    (match spacePlus r1 with
     | some r2 => (litL "select" r2).isSome
     | Option.none => false)
  | Option.none => false

/-- Positional matcher for `--\s*$` (the anchor `$` matches at the end of
the text, equivalently after consuming all trailing whitespace here). -/
def sqlDashCheck (cs : List Char) : Bool :=
  match litL "--" cs with
  | some r1 => (r1.dropWhile pyIsSpace).isEmpty
  | Option.none => false

/-- Positional matcher for `'\s*;`. -/
def sqlQuoteSemiCheck (cs : List Char) : Bool :=
  match litL "\x27" cs with
  | some r1 => (r1.dropWhile pyIsSpace).head? = some ';'
  | Option.none => false

def sql_injection_patterns : List (List Char → Bool) :=
  [sqlOrCheck, sqlDropCheck, sqlUnionCheck, sqlDashCheck, sqlQuoteSemiCheck]

/-- Embeds `HeuristicValidator.validate_sql_injection`. -/
def validate_sql_injection (query : String) : Bool × Option String :=
  if sql_injection_patterns.any (fun p => searchAny p (lowerL query.toList)) then
    (false, some "Potential SQL injection pattern detected")
  else (true, Option.none)

/-! ## Tool-call validation pipeline (heuristics.py lines 451-529)

`validate_tool_call` is embedded with one ghost component: alongside the
source's `(is_valid, errors)` result and the updated validator state it
returns the list of `CheckTag`s naming which conditional checks were
actually invoked, so that claims about which validations run can be
stated.  The non-ghost components mirror the source.  The `try` around
argument serialization cannot fail for `PyValue` arguments (always
serializable), so its `except` branch is unreachable; the only exception
the pipeline can raise is the `AttributeError` from handing a truthy
non-string nested `file_path`/`path` to `validate_file_inputs`, embedded
through `Except`. -/

inductive CheckTag where
  | toolExists
  | jsonStructure
  | apiKey
  | urlValidation
  | rateLimit
  | filePaths
  | commandSafety
  | sqlInjection
deriving DecidableEq

/-- Step 3 of `validate_tool_call`: the conditional URL block.  Returns
the errors added, the updated validator state, and the checks invoked. -/
def vtcStep3 (cfg : HeuristicConfig) (st : ValidatorState)
    (tool_args : List (String × PyValue)) (now : Int) :
    List String × ValidatorState × List CheckTag :=
  if (pyDictGet tool_args "url").isSome || (pyDictGet tool_args "input").isSome then
    match (pyDictGet tool_args "input").getD (.dict []) with
    | .dict d =>
      match pyDictGet d "url" with
      | some urlv =>
        (match validate_url urlv with
         | (true, _) =>
           let r := check_url_rate_limit cfg st urlv now
           (match r.1 with
            | (true, _) => ([], r.2, [.urlValidation, .rateLimit])
            | (false, m) => (["Rate limit: " ++ m.getD "None"], r.2, [.urlValidation, .rateLimit]))
         | (false, m) => (["URL validation: " ++ m.getD "None"], st, [.urlValidation]))
      | Option.none => ([], st, [])
    | _ => ([], st, [])
  else ([], st, [])

/-- Step 4 of `validate_tool_call`: the conditional file-path block. -/
def vtcStep4 (cfg : HeuristicConfig) (tool_args : List (String × PyValue)) :
    Except String (List String) × List CheckTag :=
  if (pyDictGet tool_args "file_path").isSome || (pyDictGet tool_args "path").isSome then
    match (pyDictGet tool_args "input").getD (.dict []) with
    | .dict d =>
      let fp : Option PyValue :=
        match pyDictGet d "file_path" with
        | some v => if pyTruthy v then some v else pyDictGet d "path"
        | Option.none => pyDictGet d "path"
      (match fp with
       | some v =>
         if pyTruthy v then
           match validate_file_inputs cfg [v] with
           | .ok (true, _) => (.ok [], [.filePaths])
           | .ok (false, m) => (.ok ["File validation: " ++ m.getD "None"], [.filePaths])
           | .error e => (.error e, [.filePaths])
         else (.ok [], [])
       | Option.none => (.ok [], []))
    | _ => (.ok [], [])
  else (.ok [], [])

/-- Step 5 of `validate_tool_call`: the conditional command block. -/
def vtcStep5 (cfg : HeuristicConfig) (tool_args : List (String × PyValue)) :
    List String × List CheckTag :=
  if (pyDictGet tool_args "command").isSome || (pyDictGet tool_args "code").isSome then
    match (pyDictGet tool_args "input").getD (.dict []) with
    | .dict d =>
      let cmd : PyValue :=
        match pyDictGet d "command" with
        | some v => if pyTruthy v then v else (pyDictGet d "code").getD (.str "")
        | Option.none => (pyDictGet d "code").getD (.str "")
      if pyTruthy cmd then
        (match validate_command_safety cfg cmd with
         | (true, _) => ([], [.commandSafety])
         | (false, m) => (["Command safety: " ++ m.getD "None"], [.commandSafety]))
      else ([], [])
    | _ => ([], [])
  else ([], [])

/-- Step 6 of `validate_tool_call`: the conditional SQL-injection block. -/
def vtcStep6 (tool_args : List (String × PyValue)) : List String × List CheckTag :=
  if (pyDictGet tool_args "query").isSome then
    match (pyDictGet tool_args "input").getD (.dict []) with
    | .dict d =>
      match pyDictGet d "query" with
      | some (.str q) =>
        (match validate_sql_injection q with
         | (true, _) => ([], [.sqlInjection])
         | (false, m) => (["SQL injection check: " ++ m.getD "None"], [.sqlInjection]))
      | some _ => ([], [])
      | Option.none => ([], [])
    | _ => ([], [])
  else ([], [])

/-- Embeds `HeuristicValidator.validate_tool_call`: runs the checks in
source order, accumulating all failures without short-circuiting, and
returns `(len(errors) == 0, errors)` together with the updated validator
state and the ghost list of invoked checks. -/
def validate_tool_call (cfg : HeuristicConfig) (st : ValidatorState) (tool_name : String)
    (tool_args : List (String × PyValue)) (available_tools : List String) (now : Int) :
    Except String (Bool × List String) × ValidatorState × List CheckTag :=
  let e1 : List String :=
    match validate_tool_exists tool_name available_tools with
    | (true, _) => []
    | (false, m) => [m.getD "None"]
  let args_str := jsonDumps (.dict tool_args)
  let e2 : List String :=
    match validate_json_input_value cfg Option.none (.dict tool_args) with
    | (true, _, _) => []
    | (false, m, _) => ["Tool args validation: " ++ m.getD "None"]
  let e3 : List String :=
    match validate_api_key_exposure args_str with
    | (true, _) => []
    | (false, m) => [m.getD "None"]
  let u := vtcStep3 cfg st tool_args now
  let f := vtcStep4 cfg tool_args
  match f.1 with
  | .error ex =>
    (.error ex, u.2.1, [CheckTag.toolExists, CheckTag.jsonStructure, CheckTag.apiKey] ++ u.2.2 ++ f.2)
  | .ok e4 =>
    let c := vtcStep5 cfg tool_args
    let q := vtcStep6 tool_args
    let errors := e1 ++ e2 ++ e3 ++ u.1 ++ e4 ++ c.1 ++ q.1
    (.ok (errors.isEmpty, errors), u.2.1,
     [CheckTag.toolExists, CheckTag.jsonStructure, CheckTag.apiKey] ++ u.2.2 ++ f.2 ++ c.2 ++ q.2)

/-! ## The execution gateway (`SandboxMCP`, action.py lines 26-81) -/

def MAX_TOOL_CALLS_PER_PLAN : Nat := 5

/-- Per-plan gateway state: the `call_count` of a `SandboxMCP` instance. -/
structure MCPState where
  call_count : Nat

/-- Outcome of the forwarded `dispatcher.call_tool` awaited under
`execute_with_timeout` (the dispatcher is an external collaborator): it
returns a result, exceeds the timeout, or raises an arbitrary error. -/
inductive DispatchOutcome where
  | ok (result : PyValue)
  | timedOut
  | raises (msg : String)

/-- What `SandboxMCP.call_tool` does, as seen by the plan: return a
result, raise a `RuntimeError` with a message, or let some other
exception propagate uncaught. -/
inductive CallOutcome where
  | ok (result : PyValue)
  | error (msg : String)
  | uncaught (msg : String)

def budgetErrorMsg : String :=
  "Exceeded max tool calls (" ++ toString MAX_TOOL_CALLS_PER_PLAN ++ ") in solve() plan."

/-- Message of the `RuntimeError` produced when `execute_with_timeout`
converts an `asyncio.TimeoutError` into
`HeuristicViolation("TIMEOUT", f"Operation exceeded {timeout}s timeout", "error")`
(whose `str()` is `[{severity.upper()}] {rule}: {message}`) and
`call_tool` re-raises it as `RuntimeError(str(e))`. -/
def timeoutViolationMsg (cfg : HeuristicConfig) : String :=
  "[ERROR] TIMEOUT: Operation exceeded " ++ toString cfg.request_timeout_seconds ++ "s timeout"

/-- Embeds `SandboxMCP.call_tool` (action.py lines 48-79): increment the
counter first; past the cap, fail with the budget error before any
validation; otherwise validate (the `available_tools` parameter stands
for the awaited `dispatcher.list_all_tools()`), fail with the joined
error list on rejection, and otherwise forward to the dispatcher under
the timeout. -/
def call_tool (cfg : HeuristicConfig) (mcp : MCPState) (vst : ValidatorState)
    (tool_name : String) (input_dict : List (String × PyValue))
    (available_tools : List String) (now : Int) (dispatch : DispatchOutcome) :
    (MCPState × ValidatorState) × CallOutcome :=
  let count' := mcp.call_count + 1
  if count' > MAX_TOOL_CALLS_PER_PLAN then
    ((⟨count'⟩, vst), .error budgetErrorMsg)
  else
    match validate_tool_call cfg vst tool_name input_dict available_tools now with
    | (.error ex, vst', _) => ((⟨count'⟩, vst'), .uncaught ex)
    | (.ok (is_valid, errors), vst', _) =>
      if !is_valid then
        ((⟨count'⟩, vst'), .error ("Tool call validation failed: " ++ String.intercalate "; " errors))
      else
        match dispatch with
        | .ok r => ((⟨count'⟩, vst'), .ok r)
        | .timedOut => ((⟨count'⟩, vst'), .error (timeoutViolationMsg cfg))
        | .raises m => ((⟨count'⟩, vst'), .uncaught m)

/-- One tool call as issued by a running plan: the arguments of
`mcp.call_tool` plus the environment of that call (the tool list the
dispatcher reports, the current time, the dispatcher's behavior). -/
structure CallSpec where
  tool_name : String
  input_dict : List (String × PyValue)
  available_tools : List String
  now : Int
  dispatch : DispatchOutcome

def stepCall (cfg : HeuristicConfig) (s : MCPState × ValidatorState) (c : CallSpec) :
    (MCPState × ValidatorState) × CallOutcome :=
  call_tool cfg s.1 s.2 c.tool_name c.input_dict c.available_tools c.now c.dispatch

/-- The sequence of tool calls of one plan run, processed in issue order
through the gateway, threading the counter and validator state. -/
def runCallsFrom (cfg : HeuristicConfig) (s : MCPState × ValidatorState) :
    List CallSpec → List CallOutcome × (MCPState × ValidatorState)
  | [] => ([], s)
  | c :: rest =>
    let r := stepCall cfg s c
    let rec' := runCallsFrom cfg r.1 rest
    (r.2 :: rec'.1, rec'.2)

/-! ## The plan runner (`run_python_sandbox`, action.py lines 28-117) -/

/-- The configuration of the global validator (`get_validator()`
constructs `HeuristicValidator()` with a default `HeuristicConfig`). -/
def defaultConfig : HeuristicConfig := {}

/-- Observable outcome of one `run_python_sandbox` invocation: the
returned string, whether the plan text was ever compiled/executed
(`exec(compile(code, ...))` reached), and whether the plan's execution
queried the dispatcher. -/
structure RunResult where
  output : String
  planExecuted : Bool
  dispatcherQueried : Bool

/-- Embeds `run_python_sandbox`.  The `exec` of the untrusted plan text,
the lookup of `solve` and its invocation are external to the embedding
(arbitrary Python code); their combined outcome is the `planRun`
parameter: `.ok v` means `solve()` returned the value `v`, `.error m`
means an exception with message `m` was raised anywhere in plan loading,
`solve` lookup (`ValueError("No solve() function found in plan.")`),
execution, or a propagated gateway failure.  `queriesDispatcher` records
whether that execution invoked the gateway (and hence the dispatcher).
On validation failure the source returns before the sandbox module is
created: nothing is executed and the dispatcher is never queried. -/
def run_python_sandbox (code : String) (planRun : Except String PyValue)
    (queriesDispatcher : Bool) : RunResult :=
  match validate_generated_plan defaultConfig code with
  | (false, error_msg) =>
    ⟨"[sandbox error: Security validation failed - " ++ error_msg.getD "None" ++ "]",
     false, false⟩
  | (true, _) =>
    match planRun with
    | .error e => ⟨"[sandbox error: " ++ e ++ "]", true, queriesDispatcher⟩
    | .ok result =>
      ⟨(match result with
        | .dict entries =>
          (match pyDictGet entries "result" with
           | some v => pyStr v
           | Option.none => jsonDumps (.dict entries))
        | .list items => String.intercalate " " (items.map pyStr)
        | v => pyStr v),
       true, queriesDispatcher⟩

/-! ## Spec-side definitions

`nestingDepth` follows the spec's words for claim C7 ("depth of a leaf =
number of its mapping/sequence ancestors"), to be compared with the
source's `get_depth`. -/

mutual
/-- Nesting depth per the spec: the maximum, over all leaves, of the
number of mapping/sequence ancestors of the leaf. -/
def nestingDepth : PyValue → Nat
  | .dict es => nestingDepthEntries es
  | .list xs => nestingDepthList xs
  | _ => 0

def nestingDepthEntries : List (String × PyValue) → Nat
  | [] => 0
  | (_, v) :: rest => max (1 + nestingDepth v) (nestingDepthEntries rest)

def nestingDepthList : List PyValue → Nat
  | [] => 0
  | v :: rest => max (1 + nestingDepth v) (nestingDepthList rest)
end

/-- A list nested to a given depth, for concrete witnesses. -/
def nestList : Nat → PyValue
  | 0 => PyValue.int 0
  | n + 1 => PyValue.list [nestList n]

/-- Maximum of `nestingDepth` over the values of an entry list (the
child-level depth used to relate `get_depth` to `nestingDepth`). -/
def childMaxE : List (String × PyValue) → Nat
  | [] => 0
  | (_, v) :: rest => max (nestingDepth v) (childMaxE rest)

def childMaxL : List PyValue → Nat
  | [] => 0
  | v :: rest => max (nestingDepth v) (childMaxL rest)

/-- The claim C6 notion of a nested url: the arguments map `input` to a
mapping, and that mapping contains `url`; this returns the nested value. -/
def nestedUrlValue (tool_args : List (String × PyValue)) : Option PyValue :=
  match pyDictGet tool_args "input" with
  | some (.dict d) => pyDictGet d "url"
  | _ => Option.none

def hasNestedUrl (tool_args : List (String × PyValue)) : Bool :=
  (nestedUrlValue tool_args).isSome

/-- Recognizes the gateway outcome of a call rejected by validation. -/
def isValidationRejection : Option CallOutcome → Bool
  | some (.error m) => strStarts m "Tool call validation failed: "
  | _ => false

/-- A concrete tool call that passes every pipeline check (for
witnesses): known tool, shallow arguments, no restricted nested fields,
a dispatcher that answers. -/
def goodSpec : CallSpec :=
  ⟨"t", [("input", .dict [("q", .str "x")])], ["t"], 0, .ok (.str "r")⟩

/-- A concrete tool call rejected by validation (unknown tool name). -/
def badSpec : CallSpec :=
  ⟨"nope", [("input", .dict [("q", .str "x")])], ["t"], 0, .ok (.str "r")⟩

/-! # Claim theorems -/

/-- C2: the claim says `validate_generated_plan` fails whenever the plan
code length exceeds `max_plan_length` and that the length check is
against `max_plan_length`.  The code instead length-checks through
`validate_input_length`, which bounds by `max_input_length`; the
`max_plan_length` field (commented "Max length of generated solve()
code") is read nowhere.  Concretely: with `max_plan_length = 1` the
two-character plan `"xy"` passes, while with `max_input_length = 1` it
fails. -/
theorem C2_plan_length_checks_wrong_threshold :
    (validate_generated_plan { max_plan_length := 1 } "xy").1 = true
  ∧ (validate_generated_plan { max_input_length := 1 } "xy").1 = false
  ∧ ({ max_plan_length := 1 : HeuristicConfig }).max_plan_length < "xy".length := by
  exact ⟨by decide, by decide, by decide⟩

/-- C5: `validate_command_safety` examines only lines containing an
execution marker, skipping comment lines: if no non-comment stripped line
contains a marker, the check passes — whatever blocked-command substrings
the text contains. -/
theorem C5_no_marker_lines_pass (cfg : HeuristicConfig) (command : String)
    (h : ∀ line ∈ splitOnNl command.toList,
        (['#'].isPrefixOf (pyStrip line)) = false →
        ∀ k ∈ execution_markers, isSubL k.toList (pyStrip line) = false) :
    validate_command_safety cfg (PyValue.str command) = (true, Option.none) := by
  have hfilter : ((splitOnNl command.toList).map pyStrip).filter
      (fun stripped => !(('#' :: []).isPrefixOf stripped) &&
        execution_markers.any (fun k => isSubL k.toList stripped)) = [] := by
    refine List.filter_eq_nil_iff.mpr ?_
    intro a ha hcontra
    rcases List.mem_map.mp ha with ⟨line, hline, rfl⟩
    rw [Bool.and_eq_true] at hcontra
    rcases hcontra with ⟨hnc, hany⟩
    rw [Bool.not_eq_true'] at hnc
    rcases List.any_eq_true.mp hany with ⟨k, hk, hsub⟩
    rw [h line hline hnc k hk] at hsub
    exact Bool.false_ne_true hsub
  simp only [validate_command_safety]
  rw [hfilter]
  simp [joinWith]

/-- Witness for C5: a text whose only marker occurrence sits on a comment
line, and which contains the blocked substring `rm -rf`, passes. -/
theorem C5_witness :
    validate_command_safety defaultConfig
      (PyValue.str "x = \x27rm -rf /\x27\n# os.system(\x27rm -rf /\x27)") = (true, Option.none) :=
  C5_no_marker_lines_pass defaultConfig _ (by decide)

/-- C9: every exception raised during plan loading, execution or result
normalization (modeled by the `planRun` parameter being `.error e`) is
converted by the runner into a string of the form
`"[sandbox error: " ++ body ++ "]"`; `run_python_sandbox` is a total
function, so no failure propagates. -/
theorem C9_runner_catches_plan_exceptions (code e : String) (q : Bool) :
    ∃ body, (run_python_sandbox code (Except.error e) q).output =
      "[sandbox error: " ++ body ++ "]" := by
  unfold run_python_sandbox
  rcases hv : validate_generated_plan defaultConfig code with ⟨b, msg⟩
  cases b
  · refine ⟨"Security validation failed - " ++ msg.getD "None", ?_⟩
    simp only
    rw [← String.append_assoc]
    have : "[sandbox error: " ++ "Security validation failed - " =
        "[sandbox error: Security validation failed - " := by decide
    rw [this]
  · exact ⟨e, rfl⟩

/-- C8: for a plan that passes validation, the runner normalizes the
entry point's return value exactly as the source's four-way case split:
a mapping with a `result` key yields that value's text form, any other
mapping its `json.dumps` serialization, a sequence its elements' text
forms joined by single spaces, anything else its text form. -/
theorem C8_result_normalization (code : String)
    (hsafe : (validate_generated_plan defaultConfig code).1 = true) (q : Bool) :
    (∀ entries v, pyDictGet entries "result" = some v →
      (run_python_sandbox code (Except.ok (PyValue.dict entries)) q).output = pyStr v)
  ∧ (∀ entries, pyDictGet entries "result" = Option.none →
      (run_python_sandbox code (Except.ok (PyValue.dict entries)) q).output =
        jsonDumps (PyValue.dict entries))
  ∧ (∀ items, (run_python_sandbox code (Except.ok (PyValue.list items)) q).output =
      String.intercalate " " (items.map pyStr))
  ∧ (∀ v, (∀ es, v ≠ PyValue.dict es) → (∀ xs, v ≠ PyValue.list xs) →
      (run_python_sandbox code (Except.ok v) q).output = pyStr v) := by
  have hv : validate_generated_plan defaultConfig code =
      (true, (validate_generated_plan defaultConfig code).2) := by
    rw [← hsafe]
  refine ⟨?_, ?_, ?_, ?_⟩
  · intro entries v hres
    unfold run_python_sandbox
    rw [hv]
    simp only
    rw [hres]
  · intro entries hres
    unfold run_python_sandbox
    rw [hv]
    simp only
    rw [hres]
  · intro items
    unfold run_python_sandbox
    rw [hv]
  · intro v hd hl
    unfold run_python_sandbox
    rw [hv]
    cases v with
    | str s => rfl
    | int n => rfl
    | bool b => rfl
    | none => rfl
    | list xs => exact absurd rfl (hl xs)
    | dict es => exact absurd rfl (hd es)

/-- Witness for C8: a safe plan with a list return is rendered
space-joined, and a mapping with a `result` key is rendered as that
value's text. -/
theorem C8_witness :
    (run_python_sandbox "def solve():\n    return 1"
      (Except.ok (PyValue.list [PyValue.int 1, PyValue.int 2])) false).output = "1 2"
  ∧ (run_python_sandbox "def solve():\n    return 1"
      (Except.ok (PyValue.dict [("result", PyValue.str "done")])) false).output = "done" := by
  have h := C8_result_normalization "def solve():\n    return 1" (by decide) false
  constructor
  · rw [h.2.2.1 [PyValue.int 1, PyValue.int 2]]
    decide
  · rw [h.1 [("result", PyValue.str "done")] (PyValue.str "done") rfl]
    rfl

/-- The pattern scan of `validate_generated_plan` reports a violation
whenever the `eval` pattern matches some non-comment line. -/
theorem scan_hits_on_eval (code : String)
    (h : ∃ line ∈ splitOnNl code.toList,
        (['#'].isPrefixOf (pyStrip line)) = false ∧
        searchWordStart (wordCallCheck "eval") line = true) :
    scan_dangerous_plan code ≠ Option.none := by
  rcases h with ⟨line, hline, hnc, hmatch⟩
  intro hnone
  unfold scan_dangerous_plan at hnone
  have hall := List.findSome?_eq_none_iff.mp hnone
  have hmem : ((wordCallCheck "eval", "eval") : (List Char → Bool) × String) ∈
      dangerous_plan_patterns := by
    unfold dangerous_plan_patterns
    exact List.mem_cons_of_mem _ (List.mem_cons_of_mem _ (List.mem_cons_self _ _))
  have hnone2 := hall _ hmem
  rw [Option.map_eq_none'] at hnone2
  have hsome : ((splitOnNl code.toList).find? (fun l =>
      !(('#' :: []).isPrefixOf (pyStrip l)) && searchWordStart (wordCallCheck "eval") l)).isSome := by
    refine List.find?_isSome.mpr ⟨line, hline, ?_⟩
    rw [hnc, hmatch]
    rfl
  rw [hnone2] at hsome
  exact Bool.false_ne_true hsome

/-- C3: a plan containing an `eval(` call (the `\beval\s*\(` pattern) on
a non-comment line is rejected by `validate_generated_plan`; the runner
then returns the formatted security error without executing the plan,
and the dispatcher is never queried in that run. -/
theorem C3_eval_marker_blocks_execution (code : String)
    (h : ∃ line ∈ splitOnNl code.toList,
        (['#'].isPrefixOf (pyStrip line)) = false ∧
        searchWordStart (wordCallCheck "eval") line = true) :
    (validate_generated_plan defaultConfig code).1 = false
  ∧ ∀ (planRun : Except String PyValue) (q : Bool),
      (run_python_sandbox code planRun q).planExecuted = false ∧
      (run_python_sandbox code planRun q).dispatcherQueried = false ∧
      ∃ m, (run_python_sandbox code planRun q).output =
        "[sandbox error: Security validation failed - " ++ m ++ "]" := by
  have hfalse : ∃ m, validate_generated_plan defaultConfig code = (false, some m) := by
    unfold validate_generated_plan
    rcases hlen : validate_input_length defaultConfig code with ⟨b, msg⟩
    cases b
    · exact ⟨_, rfl⟩
    · rcases hscan : scan_dangerous_plan code with _ | nm
      · exact absurd hscan (scan_hits_on_eval code h)
      · exact ⟨_, rfl⟩
  rcases hfalse with ⟨m, hm⟩
  refine ⟨by rw [hm], ?_⟩
  intro planRun q
  unfold run_python_sandbox
  rw [hm]
  exact ⟨rfl, rfl, m, rfl⟩

/-- Witness for C3: a concrete plan with an `eval(` call is rejected and
never executed. -/
theorem C3_witness :
    (validate_generated_plan defaultConfig
      "def solve():\n    x = eval(\x271+1\x27)\n    return x").1 = false
  ∧ (run_python_sandbox "def solve():\n    x = eval(\x271+1\x27)\n    return x"
      (Except.ok (PyValue.int 0)) true).dispatcherQueried = false := by
  have h := C3_eval_marker_blocks_execution
    "def solve():\n    x = eval(\x271+1\x27)\n    return x" (by decide)
  exact ⟨h.1, (h.2 (Except.ok (PyValue.int 0)) true).2.1⟩

theorem upsert_find_self (l : List (String × List Int)) (d : String) (ts : List Int) :
    (upsertTracker l d ts).find? (fun p => p.1 = d) = some (d, ts) := by
  induction l with
  | nil => simp [upsertTracker, List.find?_cons]
  | cons kv rest ih =>
    rcases kv with ⟨k, v⟩
    by_cases hk : k = d
    · subst hk
      simp [upsertTracker, List.find?_cons]
    · simp [upsertTracker, hk, List.find?_cons, ih]

theorem upsert_find_other (l : List (String × List Int)) (d d' : String) (ts : List Int)
    (h : d' ≠ d) :
    (upsertTracker l d ts).find? (fun p => p.1 = d') = l.find? (fun p => p.1 = d') := by
  induction l with
  | nil =>
    simp [upsertTracker, List.find?_cons, Ne.symm h]
  | cons kv rest ih =>
    rcases kv with ⟨k, v⟩
    by_cases hk : k = d
    · subst hk
      simp [upsertTracker, List.find?_cons, Ne.symm h]
    · simp [upsertTracker, hk, List.find?_cons, ih]

theorem trackerGet_set_self (st : ValidatorState) (d : String) (ts : List Int) :
    trackerGet (trackerSet st d ts) d = ts := by
  unfold trackerGet trackerSet
  simp [upsert_find_self]

theorem trackerGet_set_other (st : ValidatorState) (d d' : String) (ts : List Int)
    (h : d' ≠ d) :
    trackerGet (trackerSet st d ts) d' = trackerGet st d' := by
  unfold trackerGet trackerSet
  simp [upsert_find_other _ _ _ _ h]

/-- C4: `check_url_rate_limit` is a true sliding window per domain:
every timestamp retained after a query is within the window of `now`
(older entries are discarded before counting, and the recorded call time
is `now` itself); the call finding `max_url_calls_per_domain` or more
in-window timestamps fails; a call issued once the window has fully
elapsed since every recorded call succeeds again; and only the queried
domain's entry changes. -/
theorem C4_rate_limit_sliding_window (cfg : HeuristicConfig) (st : ValidatorState)
    (url : String) (now : Int) (hw : 0 < cfg.url_call_window_seconds) :
    (∀ t ∈ trackerGet (check_url_rate_limit cfg st (PyValue.str url) now).2
        (String.mk (urlparseL url.toList).netloc),
      now - t < (cfg.url_call_window_seconds : Int))
  ∧ (cfg.max_url_calls_per_domain ≤
        ((trackerGet st (String.mk (urlparseL url.toList).netloc)).filter
          (fun t => t > now - (cfg.url_call_window_seconds : Int))).length →
      (check_url_rate_limit cfg st (PyValue.str url) now).1.1 = false)
  ∧ ((∀ t ∈ trackerGet st (String.mk (urlparseL url.toList).netloc),
        (cfg.url_call_window_seconds : Int) ≤ now - t) →
      0 < cfg.max_url_calls_per_domain →
      (check_url_rate_limit cfg st (PyValue.str url) now).1.1 = true)
  ∧ (∀ d, d ≠ String.mk (urlparseL url.toList).netloc →
      trackerGet (check_url_rate_limit cfg st (PyValue.str url) now).2 d =
        trackerGet st d) := by
  have hwZ : (0 : Int) < (cfg.url_call_window_seconds : Int) := by exact_mod_cast hw
  unfold check_url_rate_limit
  simp only
  by_cases hc : ((trackerGet st (String.mk (urlparseL url.toList).netloc)).filter
      (fun t => t > now - (cfg.url_call_window_seconds : Int))).length ≥
      cfg.max_url_calls_per_domain
  · rw [if_pos hc]
    refine ⟨?_, fun _ => rfl, ?_, ?_⟩
    · intro t ht
      rw [trackerGet_set_self] at ht
      have := List.of_mem_filter ht
      simp only [decide_eq_true_eq] at this
      omega
    · intro hall _
      have hnil : (trackerGet st (String.mk (urlparseL url.toList).netloc)).filter
          (fun t => t > now - (cfg.url_call_window_seconds : Int)) = [] := by
        refine List.filter_eq_nil_iff.mpr ?_
        intro t ht
        have := hall t ht
        simp only [decide_eq_true_eq]
        omega
      rw [hnil] at hc
      simp at hc
      omega
    · intro d hd
      exact trackerGet_set_other st _ d _ hd
  · rw [if_neg hc]
    refine ⟨?_, fun hge => absurd hge hc, fun _ _ => rfl, ?_⟩
    · intro t ht
      rw [trackerGet_set_self] at ht
      rcases List.mem_append.mp ht with hmem | hmem
      · have := List.of_mem_filter hmem
        simp only [decide_eq_true_eq] at this
        omega
      · rcases List.mem_singleton.mp hmem with rfl
        omega
    · intro d hd
      exact trackerGet_set_other st _ d _ hd

/-- Witness for C4 at the default configuration: with five in-window
calls recorded for `example.com`, the next call at `t = 50` fails; at
`t = 100`, after the 60-second window has fully elapsed past every
recorded call, a call succeeds again. -/
theorem C4_witness :
    (check_url_rate_limit defaultConfig
      { url_call_tracker := [("example.com", [0, 10, 20, 30, 40])] }
      (PyValue.str "http://example.com/a") 50).1.1 = false
  ∧ (check_url_rate_limit defaultConfig
      { url_call_tracker := [("example.com", [0, 10, 20, 30, 40])] }
      (PyValue.str "http://example.com/a") 100).1.1 = true := by
  constructor
  · exact (C4_rate_limit_sliding_window defaultConfig
      { url_call_tracker := [("example.com", [0, 10, 20, 30, 40])] }
      "http://example.com/a" 50 (by decide)).2.1 (by decide)
  · exact (C4_rate_limit_sliding_window defaultConfig
      { url_call_tracker := [("example.com", [0, 10, 20, 30, 40])] }
      "http://example.com/a" 100 (by decide)).2.2.1 (by decide) (by decide)

theorem nestingDepthEntries_eq : ∀ es : List (String × PyValue), es ≠ [] →
    nestingDepthEntries es = 1 + childMaxE es := by
  intro es hne
  induction es with
  | nil => cases hne rfl
  | cons e rest ih =>
    rcases e with ⟨k, v⟩
    cases rest with
    | nil =>
      simp only [nestingDepthEntries, childMaxE]
      omega
    | cons e2 r2 =>
      rw [show nestingDepthEntries ((k, v) :: e2 :: r2) =
            max (1 + nestingDepth v) (nestingDepthEntries (e2 :: r2)) from rfl,
          ih (by simp),
          show childMaxE ((k, v) :: e2 :: r2) =
            max (nestingDepth v) (childMaxE (e2 :: r2)) from rfl]
      omega

theorem nestingDepthList_eq : ∀ xs : List PyValue, xs ≠ [] →
    nestingDepthList xs = 1 + childMaxL xs := by
  intro xs hne
  induction xs with
  | nil => cases hne rfl
  | cons v rest ih =>
    cases rest with
    | nil =>
      simp only [nestingDepthList, childMaxL]
      omega
    | cons v2 r2 =>
      rw [show nestingDepthList (v :: v2 :: r2) =
            max (1 + nestingDepth v) (nestingDepthList (v2 :: r2)) from rfl,
          ih (by simp),
          show childMaxL (v :: v2 :: r2) =
            max (nestingDepth v) (childMaxL (v2 :: r2)) from rfl]
      omega

/-- The truncating `get_depth` of the source computes the clamped spec
depth: `get_depth maxd v cd = min (cd + nestingDepth v) (max cd (maxd+1))`.
In particular, started at `cd = 0` it exceeds `maxd` exactly when the
spec depth does. -/
theorem get_depth_min (maxd : Nat) : ∀ n : Nat,
    (∀ v : PyValue, sizeOf v ≤ n → ∀ cd,
      get_depth maxd v cd = min (cd + nestingDepth v) (max cd (maxd + 1)))
  ∧ (∀ es : List (String × PyValue), sizeOf es ≤ n → es ≠ [] → ∀ cd,
      get_depth_entries maxd es cd = min (cd + childMaxE es) (max cd (maxd + 1)))
  ∧ (∀ xs : List PyValue, sizeOf xs ≤ n → xs ≠ [] → ∀ cd,
      get_depth_list maxd xs cd = min (cd + childMaxL xs) (max cd (maxd + 1))) := by
  intro n
  induction n with
  | zero =>
    refine ⟨?_, ?_, ?_⟩
    · intro v hv
      exfalso
      have h0 : 0 < sizeOf v := by cases v <;> simp_arith
      omega
    · intro es hes
      exfalso
      have h0 : 0 < sizeOf es := by cases es <;> simp_arith
      omega
    · intro xs hxs
      exfalso
      have h0 : 0 < sizeOf xs := by cases xs <;> simp_arith
      omega
  | succ n ih =>
    obtain ⟨ihv, ihe, ihl⟩ := ih
    refine ⟨?_, ?_, ?_⟩
    · intro v hv cd
      cases v with
      | str s => simp only [get_depth, nestingDepth]; split_ifs <;> omega
      | int i => simp only [get_depth, nestingDepth]; split_ifs <;> omega
      | bool b => simp only [get_depth, nestingDepth]; split_ifs <;> omega
      | none => simp only [get_depth, nestingDepth]; split_ifs <;> omega
      | dict es =>
        cases es with
        | nil =>
          simp only [get_depth, nestingDepth, nestingDepthEntries]
          split_ifs <;> omega
        | cons e rest =>
          have hsz : sizeOf (e :: rest) ≤ n := by
            have h1 : sizeOf (PyValue.dict (e :: rest)) = 1 + sizeOf (e :: rest) := by simp
            omega
          have hE := ihe (e :: rest) hsz (by simp) (cd + 1)
          have hD : nestingDepth (PyValue.dict (e :: rest)) = 1 + childMaxE (e :: rest) := by
            have h2 := nestingDepthEntries_eq (e :: rest) (by simp)
            simp only [nestingDepth]
            omega
          simp only [get_depth]
          rw [hE, hD]
          split_ifs <;> omega
      | list xs =>
        cases xs with
        | nil =>
          simp only [get_depth, nestingDepth, nestingDepthList]
          split_ifs <;> omega
        | cons x rest =>
          have hsz : sizeOf (x :: rest) ≤ n := by
            have h1 : sizeOf (PyValue.list (x :: rest)) = 1 + sizeOf (x :: rest) := by simp
            omega
          have hL := ihl (x :: rest) hsz (by simp) (cd + 1)
          have hD : nestingDepth (PyValue.list (x :: rest)) = 1 + childMaxL (x :: rest) := by
            have h2 := nestingDepthList_eq (x :: rest) (by simp)
            simp only [nestingDepth]
            omega
          simp only [get_depth]
          rw [hL, hD]
          split_ifs <;> omega
    · intro es hes hne cd
      cases es with
      | nil => cases hne rfl
      | cons e rest =>
        rcases e with ⟨k, v⟩
        cases rest with
        | nil =>
          have hszv : sizeOf v ≤ n := by
            have hx : sizeOf ([(k, v)] : List (String × PyValue)) =
                1 + (1 + sizeOf k + sizeOf v) + 1 := by simp
            omega
          have hv := ihv v hszv cd
          rw [show get_depth_entries maxd [(k, v)] cd = get_depth maxd v cd from rfl, hv,
              show childMaxE [(k, v)] = max (nestingDepth v) 0 from rfl]
          omega
        | cons e2 r2 =>
          have hx : sizeOf ((k, v) :: e2 :: r2) =
              1 + (1 + sizeOf k + sizeOf v) + sizeOf (e2 :: r2) := by simp
          have h1 : sizeOf v ≤ n := by omega
          have h2 : sizeOf (e2 :: r2) ≤ n := by omega
          have hv := ihv v h1 cd
          have hr := ihe (e2 :: r2) h2 (by simp) cd
          rw [show get_depth_entries maxd ((k, v) :: e2 :: r2) cd =
                max (get_depth maxd v cd) (get_depth_entries maxd (e2 :: r2) cd) from rfl,
              hv, hr,
              show childMaxE ((k, v) :: e2 :: r2) =
                max (nestingDepth v) (childMaxE (e2 :: r2)) from rfl]
          omega
    · intro xs hxs hne cd
      cases xs with
      | nil => cases hne rfl
      | cons v rest =>
        cases rest with
        | nil =>
          have hszv : sizeOf v ≤ n := by
            have hx : sizeOf ([v] : List PyValue) = 1 + sizeOf v + 1 := by simp
            omega
          have hv := ihv v hszv cd
          rw [show get_depth_list maxd [v] cd = get_depth maxd v cd from rfl, hv,
              show childMaxL [v] = max (nestingDepth v) 0 from rfl]
          omega
        | cons v2 r2 =>
          have hx : sizeOf (v :: v2 :: r2) = 1 + sizeOf v + sizeOf (v2 :: r2) := by simp
          have h1 : sizeOf v ≤ n := by omega
          have h2 : sizeOf (v2 :: r2) ≤ n := by omega
          have hv := ihv v h1 cd
          have hr := ihl (v2 :: r2) h2 (by simp) cd
          rw [show get_depth_list maxd (v :: v2 :: r2) cd =
                max (get_depth maxd v cd) (get_depth_list maxd (v2 :: r2) cd) from rfl,
              hv, hr,
              show childMaxL (v :: v2 :: r2) =
                max (nestingDepth v) (childMaxL (v2 :: r2)) from rfl]
          omega

/-- C7: for parsed JSON input, `validate_json_input` (depth part) fails
exactly when the nesting depth — the spec notion, maximal ancestor count
of a leaf — strictly exceeds the configured `max_json_depth`, and
succeeds at exactly the configured depth. -/
theorem C7_json_depth_boundary (cfg : HeuristicConfig) (v : PyValue) :
    ((validate_json_input_value cfg Option.none v).1 = false ↔
      cfg.max_json_depth < nestingDepth v)
  ∧ (nestingDepth v = cfg.max_json_depth →
      (validate_json_input_value cfg Option.none v).1 = true) := by
  have hk := (get_depth_min cfg.max_json_depth (sizeOf v)).1 v le_rfl 0
  unfold validate_json_input_value
  simp only
  rw [hk]
  by_cases hD : cfg.max_json_depth < nestingDepth v
  · rw [if_pos (by omega)]
    exact ⟨by simp [hD], fun heq => by omega⟩
  · rw [if_neg (by omega)]
    exact ⟨by simp [hD], fun _ => rfl⟩

/-- Witness for C7 at the default configuration (`max_json_depth = 10`):
a list nested exactly 10 deep passes, one nested 11 deep fails. -/
theorem C7_witness :
    (validate_json_input_value defaultConfig Option.none (nestList 10)).1 = true
  ∧ (validate_json_input_value defaultConfig Option.none (nestList 11)).1 = false := by
  constructor
  · exact (C7_json_depth_boundary defaultConfig (nestList 10)).2 (by decide)
  · exact (C7_json_depth_boundary defaultConfig (nestList 11)).1.mpr (by decide)

/-- `call_tool` increments the per-plan counter on every invocation,
whatever the outcome (the increment precedes the budget check and all
validation). -/
theorem call_tool_increments (cfg : HeuristicConfig) (mcp : MCPState) (vst : ValidatorState)
    (tool_name : String) (input_dict : List (String × PyValue))
    (available_tools : List String) (now : Int) (dispatch : DispatchOutcome) :
    ((call_tool cfg mcp vst tool_name input_dict available_tools now dispatch).1.1).call_count =
      mcp.call_count + 1 := by
  unfold call_tool
  repeat (first | rfl | dsimp only | split)

theorem runCalls_length (cfg : HeuristicConfig) (s : MCPState × ValidatorState)
    (calls : List CallSpec) :
    (runCallsFrom cfg s calls).1.length = calls.length := by
  induction calls generalizing s with
  | nil => rfl
  | cons c rest ih => simp [runCallsFrom, ih]

theorem runCalls_count (cfg : HeuristicConfig) (s : MCPState × ValidatorState)
    (calls : List CallSpec) :
    ((runCallsFrom cfg s calls).2.1).call_count = s.1.call_count + calls.length := by
  induction calls generalizing s with
  | nil => rfl
  | cons c rest ih =>
    have hstep : ((stepCall cfg s c).1.1).call_count = s.1.call_count + 1 :=
      call_tool_increments cfg s.1 s.2 c.tool_name c.input_dict c.available_tools c.now c.dispatch
    simp only [runCallsFrom]
    rw [ih]
    rw [hstep]
    simp
    omega

theorem runCalls_get (cfg : HeuristicConfig) (s : MCPState × ValidatorState)
    (calls : List CallSpec) (i : Nat) (hi : i < calls.length) :
    (runCallsFrom cfg s calls).1[i]? =
      some ((stepCall cfg (runCallsFrom cfg s (calls.take i)).2 calls[i]).2) := by
  induction calls generalizing s i with
  | nil => exact absurd hi (by simp)
  | cons c rest ih =>
    cases i with
    | zero => simp [runCallsFrom]
    | succ j =>
      have hj : j < rest.length := by simpa using hi
      have := ih (stepCall cfg s c).1 j hj
      simp only [runCallsFrom, List.getElem?_cons_succ, List.take_succ_cons,
        List.getElem_cons_succ]
      exact this

/-- C1: within one plan run every tool call past the cap of
`MAX_TOOL_CALLS_PER_PLAN = 5` — the 6th call and every later one —
fails with the budget-exceeded error regardless of its arguments,
validity or dispatcher behavior; and each of the first 5 calls succeeds
whenever it passes validation and the dispatcher answers. -/
theorem C1_call_budget (cfg : HeuristicConfig) (vst0 : ValidatorState)
    (calls : List CallSpec) (i : Nat) (hi : i < calls.length) :
    (MAX_TOOL_CALLS_PER_PLAN ≤ i →
      (runCallsFrom cfg (⟨0⟩, vst0) calls).1[i]? =
        some (CallOutcome.error budgetErrorMsg))
  ∧ (i < MAX_TOOL_CALLS_PER_PLAN →
      (∃ es, (validate_tool_call cfg ((runCallsFrom cfg (⟨0⟩, vst0) (calls.take i)).2).2
          (calls[i]).tool_name (calls[i]).input_dict (calls[i]).available_tools
          (calls[i]).now).1 = Except.ok (true, es)) →
      ∀ r0, (calls[i]).dispatch = DispatchOutcome.ok r0 →
        (runCallsFrom cfg (⟨0⟩, vst0) calls).1[i]? = some (CallOutcome.ok r0)) := by
  have hget := runCalls_get cfg (⟨0⟩, vst0) calls i hi
  have hcount : (((runCallsFrom cfg (⟨0⟩, vst0) (calls.take i)).2).1).call_count = i := by
    rw [runCalls_count]
    simp [List.length_take, Nat.min_eq_left (Nat.le_of_lt hi)]
  constructor
  · intro h6
    rw [hget]
    unfold stepCall call_tool
    rw [hcount]
    rw [if_pos (by unfold MAX_TOOL_CALLS_PER_PLAN at h6 ⊢; omega)]
  · intro h5 hvalid r0 hdisp
    rcases hvalid with ⟨es, hes⟩
    rw [hget]
    unfold stepCall call_tool
    rw [hcount]
    rw [if_neg (by unfold MAX_TOOL_CALLS_PER_PLAN at h5 ⊢; omega)]
    rcases hvt : validate_tool_call cfg ((runCallsFrom cfg (⟨0⟩, vst0) (calls.take i)).2).2
        (calls[i]).tool_name (calls[i]).input_dict (calls[i]).available_tools
        (calls[i]).now with ⟨res, vst', tags⟩
    rw [hvt] at hes
    simp only at hes
    subst hes
    simp only
    rw [hdisp]
    rfl

/-- Witness for C1: in a run of 7 identical valid calls, the 3rd call
succeeds and the 6th fails with the budget-exceeded error. -/
theorem C1_witness :
    (∃ r, (runCallsFrom defaultConfig (⟨0⟩, {}) (List.replicate 7 goodSpec)).1[2]? =
      some (CallOutcome.ok r))
  ∧ (runCallsFrom defaultConfig (⟨0⟩, {}) (List.replicate 7 goodSpec)).1[5]? =
      some (CallOutcome.error budgetErrorMsg) := by
  constructor
  · exact ⟨PyValue.str "r",
      (C1_call_budget defaultConfig {} (List.replicate 7 goodSpec) 2 (by decide)).2
        (by decide) ⟨[], rfl⟩ (PyValue.str "r") rfl⟩
  · exact (C1_call_budget defaultConfig {} (List.replicate 7 goodSpec) 5 (by decide)).1
      (by decide)

/-- C10: the gateway increments the per-plan counter before any
validation, so every invocation — including one rejected by validation —
consumes a budget slot; consequently, in a run whose first 5 calls were
all rejected by validation, the 6th call fails with the budget-exceeded
error no matter how well-formed it is. -/
theorem C10_counter_increment_before_validation (cfg : HeuristicConfig) (vst0 : ValidatorState) :
    (∀ (mcp : MCPState) (vst : ValidatorState) (tool_name : String)
        (input_dict : List (String × PyValue)) (available_tools : List String)
        (now : Int) (dispatch : DispatchOutcome),
      ((call_tool cfg mcp vst tool_name input_dict available_tools now dispatch).1.1).call_count =
        mcp.call_count + 1)
  ∧ (∀ calls : List CallSpec, 6 ≤ calls.length →
      (∀ i, i < 5 → isValidationRejection ((runCallsFrom cfg (⟨0⟩, vst0) calls).1[i]?) = true) →
      (runCallsFrom cfg (⟨0⟩, vst0) calls).1[5]? = some (CallOutcome.error budgetErrorMsg)) := by
  constructor
  · exact fun mcp vst tn idict av now d => call_tool_increments cfg mcp vst tn idict av now d
  · intro calls hlen _
    have hi : 5 < calls.length := by omega
    have hget := runCalls_get cfg (⟨0⟩, vst0) calls 5 hi
    have hcount : (((runCallsFrom cfg (⟨0⟩, vst0) (calls.take 5)).2).1).call_count = 5 := by
      rw [runCalls_count]
      simp [Nat.min_eq_left (by omega : 5 ≤ calls.length)]
    rw [hget]
    unfold stepCall call_tool
    rw [hcount]
    rw [if_pos (by unfold MAX_TOOL_CALLS_PER_PLAN; omega)]

/-- Witness for C10: five calls to an unknown tool are each rejected by
validation, and the 6th call — a perfectly valid one — still fails with
the budget-exceeded error. -/
theorem C10_witness :
    (runCallsFrom defaultConfig (⟨0⟩, {}) (List.replicate 5 badSpec ++ [goodSpec])).1[5]? =
      some (CallOutcome.error budgetErrorMsg) :=
  (C10_counter_increment_before_validation defaultConfig {}).2
    (List.replicate 5 badSpec ++ [goodSpec]) (by decide) (by decide)

theorem vtcStep4_tags (cfg : HeuristicConfig) (tool_args : List (String × PyValue)) :
    (vtcStep4 cfg tool_args).2 = [] ∨ (vtcStep4 cfg tool_args).2 = [CheckTag.filePaths] := by
  unfold vtcStep4
  repeat (first | (left; rfl) | (right; rfl) | dsimp only | split)

theorem vtcStep5_tags (cfg : HeuristicConfig) (tool_args : List (String × PyValue)) :
    (vtcStep5 cfg tool_args).2 = [] ∨ (vtcStep5 cfg tool_args).2 = [CheckTag.commandSafety] := by
  unfold vtcStep5
  repeat (first | (left; rfl) | (right; rfl) | dsimp only | split)

theorem vtcStep6_tags (tool_args : List (String × PyValue)) :
    (vtcStep6 tool_args).2 = [] ∨ (vtcStep6 tool_args).2 = [CheckTag.sqlInjection] := by
  unfold vtcStep6
  repeat (first | (left; rfl) | (right; rfl) | dsimp only | split)

/-- The URL block of the pipeline invokes `validate_url` exactly when the
arguments carry a nested url, and invokes the rate-limit check exactly
when that nested url additionally passes URL validation. -/
theorem vtcStep3_trace (cfg : HeuristicConfig) (st : ValidatorState)
    (tool_args : List (String × PyValue)) (now : Int) :
    ((CheckTag.urlValidation ∈ (vtcStep3 cfg st tool_args now).2.2) ↔
      hasNestedUrl tool_args = true)
  ∧ ((CheckTag.rateLimit ∈ (vtcStep3 cfg st tool_args now).2.2) ↔
      ∃ u, nestedUrlValue tool_args = some u ∧ (validate_url u).1 = true) := by
  unfold vtcStep3 hasNestedUrl nestedUrlValue
  by_cases hcond : ((pyDictGet tool_args "url").isSome ||
      (pyDictGet tool_args "input").isSome) = true
  · rw [if_pos hcond]
    generalize pyDictGet tool_args "input" = inp
    cases inp with
    | none => simp [pyDictGet]
    | some iv =>
      cases iv with
      | dict d =>
        dsimp only [Option.getD_some]
        generalize pyDictGet d "url" = nu
        cases nu with
        | none => simp
        | some urlv =>
          dsimp only
          rcases hval : validate_url urlv with ⟨b, m⟩
          cases b
          · refine ⟨by simp, ?_, ?_⟩
            · intro hmem
              simp at hmem
            · rintro ⟨u, hu, hv1⟩
              obtain rfl : urlv = u := Option.some.inj hu
              rw [hval] at hv1
              exact absurd hv1 (by simp)
          · rcases hr : (check_url_rate_limit cfg st urlv now).1 with ⟨rb, rm⟩
            cases rb
            · refine ⟨by simp, ?_, ?_⟩
              · intro _
                exact ⟨urlv, rfl, by rw [hval]⟩
              · intro _
                simp
            · refine ⟨by simp, ?_, ?_⟩
              · intro _
                exact ⟨urlv, rfl, by rw [hval]⟩
              · intro _
                simp
      | str s => simp
      | int n => simp
      | bool b => simp
      | none => simp
      | list xs => simp
  · rw [if_neg hcond]
    have hnone : pyDictGet tool_args "input" = Option.none := by
      rcases h2 : pyDictGet tool_args "input" with _ | iv
      · rfl
      · exfalso
        apply hcond
        rw [h2]
        simp
    rw [hnone]
    simp

/-- For the two URL-related tags, membership in the full pipeline trace
reduces to membership in the URL block's trace: the fixed initial checks
and the file/command/query blocks never produce them. -/
theorem vtc_trace_url_iff (cfg : HeuristicConfig) (st : ValidatorState) (tool_name : String)
    (tool_args : List (String × PyValue)) (available_tools : List String) (now : Int)
    (tag : CheckTag) (htag : tag = CheckTag.urlValidation ∨ tag = CheckTag.rateLimit) :
    (tag ∈ (validate_tool_call cfg st tool_name tool_args available_tools now).2.2 ↔
      tag ∈ (vtcStep3 cfg st tool_args now).2.2) := by
  have htagf : tag ∉ (vtcStep4 cfg tool_args).2 := by
    rcases vtcStep4_tags cfg tool_args with h | h <;> rw [h] <;>
      rcases htag with rfl | rfl <;> simp
  have htagc : tag ∉ (vtcStep5 cfg tool_args).2 := by
    rcases vtcStep5_tags cfg tool_args with h | h <;> rw [h] <;>
      rcases htag with rfl | rfl <;> simp
  have htagq : tag ∉ (vtcStep6 tool_args).2 := by
    rcases vtcStep6_tags tool_args with h | h <;> rw [h] <;>
      rcases htag with rfl | rfl <;> simp
  have htagbase : tag ∉ [CheckTag.toolExists, CheckTag.jsonStructure, CheckTag.apiKey] := by
    rcases htag with rfl | rfl <;> simp
  unfold validate_tool_call
  dsimp only
  rcases hf : (vtcStep4 cfg tool_args).1 with ex | e4
  · dsimp only
    simp only [List.mem_append]
    constructor
    · rintro ((hb | hu) | hfm)
      · exact absurd hb htagbase
      · exact hu
      · exact absurd hfm htagf
    · intro hu
      exact Or.inl (Or.inr hu)
  · dsimp only
    simp only [List.mem_append]
    constructor
    · rintro ((((hb | hu) | hfm) | hc) | hq)
      · exact absurd hb htagbase
      · exact hu
      · exact absurd hfm htagf
      · exact absurd hc htagc
      · exact absurd hq htagq
    · intro hu
      exact Or.inl (Or.inl (Or.inl (Or.inr hu)))

/-- C6: `validate_tool_call` performs URL validation if and only if the
arguments map `input` to a mapping containing `url`, and performs the
rate-limit check exactly when that nested url also passes URL
validation (the check that follows URL validation); when `url` appears
only as a top-level key, neither URL validation nor the rate-limit check
is performed. -/
theorem C6_nested_url_gating (cfg : HeuristicConfig) (st : ValidatorState) (tool_name : String)
    (tool_args : List (String × PyValue)) (available_tools : List String) (now : Int) :
    ((CheckTag.urlValidation ∈
        (validate_tool_call cfg st tool_name tool_args available_tools now).2.2) ↔
      hasNestedUrl tool_args = true)
  ∧ ((CheckTag.rateLimit ∈
        (validate_tool_call cfg st tool_name tool_args available_tools now).2.2) ↔
      ∃ u, nestedUrlValue tool_args = some u ∧ (validate_url u).1 = true)
  ∧ ((pyDictGet tool_args "url").isSome = true → hasNestedUrl tool_args = false →
      CheckTag.urlValidation ∉
        (validate_tool_call cfg st tool_name tool_args available_tools now).2.2 ∧
      CheckTag.rateLimit ∉
        (validate_tool_call cfg st tool_name tool_args available_tools now).2.2) := by
  have h3 := vtcStep3_trace cfg st tool_args now
  have hu := vtc_trace_url_iff cfg st tool_name tool_args available_tools now
    CheckTag.urlValidation (Or.inl rfl)
  have hr := vtc_trace_url_iff cfg st tool_name tool_args available_tools now
    CheckTag.rateLimit (Or.inr rfl)
  refine ⟨hu.trans h3.1, hr.trans h3.2, ?_⟩
  intro _ hno
  constructor
  · rw [hu, h3.1, hno]
    simp
  · rw [hr, h3.2]
    rintro ⟨u, hu', _⟩
    unfold hasNestedUrl at hno
    rw [hu'] at hno
    simp at hno

/-- Witness for C6: with the url nested under `input`, the rate-limit
check runs; with the same url only at top level, URL validation does not
run. -/
theorem C6_witness :
    CheckTag.rateLimit ∈ (validate_tool_call defaultConfig {} "t"
      [("input", PyValue.dict [("url", PyValue.str "http://example.com/a")])] ["t"] 0).2.2
  ∧ CheckTag.urlValidation ∉ (validate_tool_call defaultConfig {} "t"
      [("url", PyValue.str "http://example.com/a")] ["t"] 0).2.2 := by
  constructor
  · exact (C6_nested_url_gating defaultConfig {} "t"
      [("input", PyValue.dict [("url", PyValue.str "http://example.com/a")])] ["t"] 0).2.1.mpr
      ⟨PyValue.str "http://example.com/a", rfl, by decide⟩
  · exact ((C6_nested_url_gating defaultConfig {} "t"
      [("url", PyValue.str "http://example.com/a")] ["t"] 0).2.2 (by decide) (by decide)).1
